import Mathlib

/-!
Shallow embedding of the airport-clustering and globe-projection layer of
`src/pages/neighborhood/globe.js`, together with the API handler's response
shape, and proofs of the specification's claims about them.

Conventions of the embedding:
* JS numbers are modelled as real numbers (`ℝ`) where the code does
  continuous arithmetic (positions, angles), and as rationals (`ℚ`) where
  the code only compares and stores finite decimal values (hours, sizes,
  latitudes as data).
* A possibly-`undefined`/`null` JS field is an `Option`; JS truthiness on
  such a field is made explicit (`truthy`, `truthyNum`, `geOpt`).
* `THREE.Vector3` is the structure `Vec3`; `Vector3.normalize` divides by
  the length unless the length is `0`, in which case the vector is kept
  (THREE divides by `length() || 1`), which `vnormalize` reproduces.
-/

structure Vec3 where
  x : ℝ
  y : ℝ
  z : ℝ

theorem Vec3.ext_iff' {a b : Vec3} : a = b ↔ a.x = b.x ∧ a.y = b.y ∧ a.z = b.z := by
  constructor
  · intro h; cases h; exact ⟨rfl, rfl, rfl⟩
  · intro ⟨hx, hy, hz⟩; cases a; cases b; simp_all

def vzero : Vec3 := ⟨0, 0, 0⟩

/-- Componentwise sum, `THREE.Vector3.add`. -/
def vadd (a b : Vec3) : Vec3 := ⟨a.x + b.x, a.y + b.y, a.z + b.z⟩

/-- Componentwise difference, `THREE.Vector3.sub`. -/
def vsub (a b : Vec3) : Vec3 := ⟨a.x - b.x, a.y - b.y, a.z - b.z⟩

/-- Scalar multiple, `THREE.Vector3.multiplyScalar`. -/
def vsmul (c : ℝ) (a : Vec3) : Vec3 := ⟨c * a.x, c * a.y, c * a.z⟩

/-- Dot product, `THREE.Vector3.dot`. -/
def dot3 (a b : Vec3) : ℝ := a.x * b.x + a.y * b.y + a.z * b.z

/-- Euclidean length, `THREE.Vector3.length`. -/
noncomputable def norm3 (a : Vec3) : ℝ := Real.sqrt (dot3 a a)

/-- `THREE.Vector3.normalize`: divide by the length, keeping a zero vector
unchanged (THREE divides by `length() || 1`). -/
noncomputable def vnormalize (a : Vec3) : Vec3 :=
  if norm3 a = 0 then a else vsmul (norm3 a)⁻¹ a

/-- Distance between two points, `THREE.Vector3.distanceTo`. -/
noncomputable def dist3 (a b : Vec3) : ℝ := norm3 (vsub a b)

/-- `latLonToVec3(lat, lon, radius)` from `globe.js` lines 64-72. -/
noncomputable def latLonToVec3 (lat lon radius : ℝ) : Vec3 :=
  let phi := (90 - lat) * (Real.pi / 180)
  let theta := (lon + 180) * (Real.pi / 180)
  ⟨-radius * Real.sin phi * Real.cos theta,
    radius * Real.cos phi,
    radius * Real.sin phi * Real.sin theta⟩

/-- Default radius of `latLonToVec3` in `globe.js` (argument default `1.001`). -/
noncomputable def defaultDotRadius : ℝ := 1.001

/-- `calculateOffsetPosition(basePosition, index, total)` from `globe.js`
lines 126-149.  The JS builds `normal = pos.clone().normalize()`, computes
`offset.dot(normal)` on the unmutated `normal`, then scales `normal` by that
dot product and subtracts it from `offset` to get the tangent component. -/
noncomputable def calculateOffsetPosition (basePosition : Vec3) (index total : ℕ) : Vec3 :=
  if total ≤ 1 then basePosition
  else
    let angle : ℝ := ((index : ℝ) / (total : ℝ)) * Real.pi * 2
    let radius : ℝ := 0.01
    let offsetX := Real.cos angle * radius
    let offsetZ := Real.sin angle * radius
    let pos := basePosition
    let offset : Vec3 := ⟨offsetX, 0, offsetZ⟩
    let normal := vnormalize pos
    let tangent := vsub offset (vsmul (dot3 offset normal) normal)
    let finalPos := vnormalize (vadd pos tangent)
    finalPos

/-- The sequence of positions one airport group produces: `globe.js` line 165
maps index `0 .. total-1` over `calculateOffsetPosition` with a fixed base. -/
noncomputable def offsetPositions (basePosition : Vec3) (count : ℕ) : List Vec3 :=
  (List.range count).map fun i => calculateOffsetPosition basePosition i count

-- Basic algebra of the vector operations.

theorem dot3_comm (a b : Vec3) : dot3 a b = dot3 b a := by
  simp [dot3]; ring

theorem dot3_self_nonneg (a : Vec3) : 0 ≤ dot3 a a := by
  simp only [dot3]
  nlinarith [sq_nonneg a.x, sq_nonneg a.y, sq_nonneg a.z]

theorem norm3_nonneg (a : Vec3) : 0 ≤ norm3 a := Real.sqrt_nonneg _

theorem norm3_sq (a : Vec3) : norm3 a ^ 2 = dot3 a a :=
  Real.sq_sqrt (dot3_self_nonneg a)

theorem norm3_eq_zero_iff (a : Vec3) : norm3 a = 0 ↔ a = vzero := by
  rw [norm3, Real.sqrt_eq_zero']
  constructor
  · intro h
    have h0 : dot3 a a = 0 := le_antisymm h (dot3_self_nonneg a)
    simp only [dot3] at h0
    have hx : a.x = 0 := by nlinarith [sq_nonneg a.x, sq_nonneg a.y, sq_nonneg a.z]
    have hy : a.y = 0 := by nlinarith [sq_nonneg a.x, sq_nonneg a.y, sq_nonneg a.z]
    have hz : a.z = 0 := by nlinarith [sq_nonneg a.x, sq_nonneg a.y, sq_nonneg a.z]
    rw [Vec3.ext_iff']; exact ⟨hx, hy, hz⟩
  · intro h; subst h; simp [dot3, vzero]

theorem norm3_pos_of_ne (a : Vec3) (h : a ≠ vzero) : 0 < norm3 a := by
  rcases lt_or_eq_of_le (norm3_nonneg a) with hlt | heq
  · exact hlt
  · exact absurd ((norm3_eq_zero_iff a).mp heq.symm) h

theorem vsub_eq_vzero_iff (a b : Vec3) : vsub a b = vzero ↔ a = b := by
  rw [Vec3.ext_iff' (a := vsub a b), Vec3.ext_iff' (a := a)]
  simp [vsub, vzero, sub_eq_zero]

theorem dist3_pos_of_ne (a b : Vec3) (h : a ≠ b) : 0 < dist3 a b := by
  apply norm3_pos_of_ne
  intro hc
  exact h ((vsub_eq_vzero_iff a b).mp hc)

theorem vnormalize_of_ne (a : Vec3) (h : a ≠ vzero) :
    vnormalize a = vsmul (norm3 a)⁻¹ a := by
  rw [vnormalize, if_neg]
  intro hc
  exact h ((norm3_eq_zero_iff a).mp hc)

theorem norm3_smul (c : ℝ) (a : Vec3) : norm3 (vsmul c a) = |c| * norm3 a := by
  have h : dot3 (vsmul c a) (vsmul c a) = c ^ 2 * dot3 a a := by
    simp [dot3, vsmul]; ring
  rw [norm3, h, Real.sqrt_mul (sq_nonneg c), Real.sqrt_sq_eq_abs, norm3]

theorem norm3_vnormalize (a : Vec3) (h : a ≠ vzero) : norm3 (vnormalize a) = 1 := by
  have hpos := norm3_pos_of_ne a h
  rw [vnormalize_of_ne a h, norm3_smul, abs_of_pos (inv_pos.mpr hpos),
    inv_mul_cancel₀ (ne_of_gt hpos)]

-- Data model: persons (neighbors), airports, markers.

/-- A neighbor record as the globe page reads it.  Fields the code accesses
that may be `undefined`/`null` in JS are `Option`s; `approvedFlightStipend`
is tested only for truthiness, `totalTimeHackatimeHours` only against `100`. -/
structure Person where
  slackId : Option String
  airport : Option String
  approvedFlightStipend : Option Bool
  totalTimeHackatimeHours : Option ℚ
deriving DecidableEq

/-- An entry of the static `airports.json` table as `AirportDots` reads it:
`iata`, `icao`, `lat`, `lon`, any of which may be absent. -/
structure Airport where
  iata : Option String
  icao : Option String
  lat : Option ℚ
  lon : Option ℚ
deriving DecidableEq

/-- JS truthiness of a possibly-absent boolean field
(`neighbor.approvedFlightStipend ? ... : ...`). -/
def truthy : Option Bool → Bool
  | none => false
  | some b => b

/-- JS `field >= c` where the field may be `undefined`
(`undefined >= 100` is `false`). -/
def geOpt (h : Option ℚ) (c : ℚ) : Bool :=
  match h with
  | none => false
  | some v => decide (c ≤ v)

/-- JS truthiness of a possibly-absent numeric field
(`!airport.lat`: `undefined`, and the number `0`, are falsy). -/
def truthyNum : Option ℚ → Bool
  | none => false
  | some v => decide (v ≠ 0)

/-- `String.prototype.toUpperCase` for the airport codes involved: uppercase
every character. -/
def upper (s : String) : String := ⟨s.data.map Char.toUpper⟩

/-- Marker color chosen at `globe.js` lines 168-174:
`approvedFlightStipend ? "#00ff00" : totalTimeHackatimeHours >= 100 ? "#ffff00" : "red"`. -/
def markerColor (p : Person) : String :=
  if truthy p.approvedFlightStipend then "#00ff00"
  else if geOpt p.totalTimeHackatimeHours 100 then "#ffff00"
  else "red"

/-- Base size chosen from the color in `BlinkingDot`, `globe.js` lines 82-86:
`color === "red" ? 0.0075 : color === "#ffff00" ? 0.0105 : 0.015`. -/
def baseSize (color : String) : ℚ :=
  if color = "red" then 0.0075
  else if color = "#ffff00" then 0.0105
  else 0.015

/-- Per-frame blink multiplier in `BlinkingDot`, `globe.js` line 79:
`Math.abs(Math.sin(t * 2))` of the clock's elapsed seconds. -/
noncomputable def blinkScale (t : ℝ) : ℝ := |Real.sin (t * 2)|

/-- The scale vector set on the mesh each frame, `globe.js` line 87:
`scale * baseSize` on each of the three axes. -/
noncomputable def markerScale (color : String) (t : ℝ) : Vec3 :=
  ⟨blinkScale t * (baseSize color : ℝ),
    blinkScale t * (baseSize color : ℝ),
    blinkScale t * (baseSize color : ℝ)⟩

-- Grouping and rendering, `AirportDots` (`globe.js` lines 111-178).

/-- Insertion into the accumulator object of the `reduce` at lines 115-123:
an existing key keeps its place and gets the person appended; a new key is
appended at the end (JS object insertion order, as `Object.entries` later
iterates it). -/
def insertGroup : List (String × List Person) → String → Person → List (String × List Person)
  | [], code, p => [(code, [p])]
  | g :: gs, code, p =>
    if g.1 = code then (g.1, g.2 ++ [p]) :: gs
    else g :: insertGroup gs code p

/-- The `reduce` of `globe.js` lines 115-123: group neighbors by uppercased
airport code, skipping falsy (`null`/missing) codes. -/
def groupByAirport (neighbors : List Person) : List (String × List Person) :=
  neighbors.foldl
    (fun groups p =>
      match p.airport with
      | none => groups
      | some a => insertGroup groups (upper a) p)
    []

/-- Members recorded under a code (first matching entry, else empty). -/
def membersOf (groups : List (String × List Person)) (code : String) : List Person :=
  match groups.find? (fun g => g.1 = code) with
  | some g => g.2
  | none => []

/-- The lookup at `globe.js` lines 153-155:
`Object.values(airportsData).find(a => a.iata?.toUpperCase() === code || a.icao?.toUpperCase() === code)`;
an absent `iata`/`icao` gives `undefined === code`, which is false. -/
def airportMatches (a : Airport) (code : String) : Bool :=
  (match a.iata with
   | some s => upper s = code
   | none => false) ||
  (match a.icao with
   | some s => upper s = code
   | none => false)

/-- One rendered marker: its position on the globe and its color. -/
structure Marker where
  position : Vec3
  color : String

/-- Numeric value the render path feeds to `latLonToVec3`
(`Number(airport.lat)`); only reached on truthy fields, where it is `some`. -/
def numVal : Option ℚ → ℝ
  | none => 0
  | some v => (v : ℝ)

/-- The body of the `Object.entries(...).map` at `globe.js` lines 151-176 for
one group: find the airport; return `null` (here `none`) if there is no match
or `lat`/`lon` is falsy; otherwise produce one marker per member at its offset
position. -/
noncomputable def renderGroup (airportsData : List Airport) (code : String)
    (members : List Person) : Option (List Marker) :=
  match airportsData.find? (fun a => airportMatches a code) with
  | none => none
  | some airport =>
    if truthyNum airport.lat && truthyNum airport.lon then
      let basePosition := latLonToVec3 (numVal airport.lat) (numVal airport.lon) defaultDotRadius
      some (members.enum.map fun ie =>
        { position := calculateOffsetPosition basePosition ie.1 members.length,
          color := markerColor ie.2 })
    else none

/-- The groups that survive the guard at `globe.js` line 156 (the rest
`return null` and are removed by `.filter(Boolean)`). -/
def keptGroups (airportsData : List Airport) (neighbors : List Person) :
    List (String × List Person) :=
  (groupByAirport neighbors).filter fun g =>
    match airportsData.find? (fun a => airportMatches a g.1) with
    | none => false
    | some airport => truthyNum airport.lat && truthyNum airport.lon

/-- The full marker list of `AirportDots`: map each group through
`renderGroup`, drop the `null`s, flatten (`.flat().filter(Boolean)`). -/
noncomputable def airportDots (neighbors : List Person) (airportsData : List Airport) :
    List Marker :=
  ((groupByAirport neighbors).filterMap fun g => renderGroup airportsData g.1 g.2).flatten

-- The API handler's response shape (`getNeighborsSecurely`).

/-- One element of the `neighbors` array built by the API handler's `map`:
it has exactly these eleven keys, so any other property access on it
(in particular `approvedFlightStipend`) yields `undefined`. -/
structure NeighborResponseItem where
  id : String
  pfp : Option String
  slackId : Option String
  slackFullName : Option String
  githubUsername : Option String
  totalTimeCombinedHours : ℚ
  totalTimeHackatimeHours : ℤ
  totalTimeStopwatchHours : ℚ
  fullName : Option String
  totalCheckedTime : ℚ
  airport : Option String

/-- The globe page's view of a handler record: the fields the marker logic
reads.  `approvedFlightStipend` is not a key of the response item, so the
access yields `undefined`, i.e. `none`. -/
def personOfResponse (r : NeighborResponseItem) : Person :=
  { slackId := r.slackId
    airport := r.airport
    approvedFlightStipend := none
    totalTimeHackatimeHours := some (r.totalTimeHackatimeHours : ℚ) }

-- Unfolded forms of the geometry definitions, for use in proofs.

theorem latLonToVec3_eq (lat lon r : ℝ) :
    latLonToVec3 lat lon r =
      ⟨-r * Real.sin ((90 - lat) * (Real.pi / 180)) * Real.cos ((lon + 180) * (Real.pi / 180)),
        r * Real.cos ((90 - lat) * (Real.pi / 180)),
        r * Real.sin ((90 - lat) * (Real.pi / 180)) * Real.sin ((lon + 180) * (Real.pi / 180))⟩ :=
  rfl

/-- Angle assigned to index `i` of `total`: `(index / total) * Math.PI * 2`. -/
noncomputable def dotAngle (i total : ℕ) : ℝ := ((i : ℝ) / (total : ℝ)) * Real.pi * 2

/-- The flat offset vector `(cos(angle)*0.01, 0, sin(angle)*0.01)`. -/
noncomputable def flatOffset (i total : ℕ) : Vec3 :=
  ⟨Real.cos (dotAngle i total) * 0.01, 0, Real.sin (dotAngle i total) * 0.01⟩

theorem calculateOffsetPosition_of_le_one (b : Vec3) (i total : ℕ) (h : total ≤ 1) :
    calculateOffsetPosition b i total = b := by
  rw [calculateOffsetPosition, if_pos h]

theorem calculateOffsetPosition_of_two_le (b : Vec3) (i total : ℕ) (h : 2 ≤ total) :
    calculateOffsetPosition b i total =
      vnormalize (vadd b
        (vsub (flatOffset i total)
          (vsmul (dot3 (flatOffset i total) (vnormalize b)) (vnormalize b)))) := by
  rw [calculateOffsetPosition, if_neg (by omega)]
  rfl

theorem norm3_latLonToVec3 (lat lon r : ℝ) (hr : 0 ≤ r) :
    norm3 (latLonToVec3 lat lon r) = r := by
  have h1 := Real.sin_sq_add_cos_sq ((90 - lat) * (Real.pi / 180))
  have h2 := Real.sin_sq_add_cos_sq ((lon + 180) * (Real.pi / 180))
  have hd : dot3 (latLonToVec3 lat lon r) (latLonToVec3 lat lon r) = r ^ 2 := by
    rw [latLonToVec3_eq]
    simp only [dot3]
    linear_combination (r ^ 2 * Real.sin ((90 - lat) * (Real.pi / 180)) ^ 2) * h2 +
      r ^ 2 * h1
  rw [norm3, hd, Real.sqrt_sq hr]

/-- C3: for every lat in [-90, 90], lon in [-180, 180] and radius r > 0, the
point returned by `latLonToVec3 lat lon r` has Euclidean norm exactly r. -/
theorem C3_latLonToVec3_norm (lat lon r : ℝ)
    (_hlat : -90 ≤ lat ∧ lat ≤ 90) (_hlon : -180 ≤ lon ∧ lon ≤ 180) (hr : 0 < r) :
    norm3 (latLonToVec3 lat lon r) = r :=
  norm3_latLonToVec3 lat lon r hr.le

/-- C3 witness: at lat 0, lon 0, r 1 the norm is 1. -/
theorem C3_latLonToVec3_norm_witness :
    norm3 (latLonToVec3 0 0 1) = 1 :=
  C3_latLonToVec3_norm 0 0 1 (by norm_num) (by norm_num) (by norm_num)

/-- C4: marker classification is total and follows priority order, first
match wins: a truthy approved flag gives green at base size 0.015; otherwise
hours >= 100 gives yellow at 0.7 * 0.015 = 0.0105; otherwise red at
0.5 * 0.015 = 0.0075; an absent approved flag or hours field fails its test
and falls through toward red. -/
theorem C4_classification (p : Person) :
    (truthy p.approvedFlightStipend = true →
      markerColor p = "#00ff00" ∧ baseSize (markerColor p) = 0.015) ∧
    (truthy p.approvedFlightStipend = false →
      geOpt p.totalTimeHackatimeHours 100 = true →
      markerColor p = "#ffff00" ∧ baseSize (markerColor p) = 0.7 * 0.015) ∧
    (truthy p.approvedFlightStipend = false →
      geOpt p.totalTimeHackatimeHours 100 = false →
      markerColor p = "red" ∧ baseSize (markerColor p) = 0.5 * 0.015) ∧
    (p.approvedFlightStipend = none → truthy p.approvedFlightStipend = false) ∧
    (p.totalTimeHackatimeHours = none → geOpt p.totalTimeHackatimeHours 100 = false) := by
  refine ⟨?_, ?_, ?_, ?_, ?_⟩
  · intro h
    rw [markerColor, if_pos h]
    rw [baseSize, if_neg (by decide), if_neg (by decide)]
    norm_num
  · intro h1 h2
    rw [markerColor, if_neg (by simp [h1]), if_pos h2]
    rw [baseSize, if_neg (by decide), if_pos rfl]
    norm_num
  · intro h1 h2
    rw [markerColor, if_neg (by simp [h1]), if_neg (by simp [h2])]
    rw [baseSize, if_pos rfl]
    norm_num
  · intro h; rw [h]; rfl
  · intro h; rw [h]; rfl

/-- C4 witness: the three scenario persons of the spec get green, yellow,
red respectively. -/
theorem C4_classification_witness :
    markerColor ⟨none, none, some true, some 5⟩ = "#00ff00" ∧
    markerColor ⟨none, none, some false, some 150⟩ = "#ffff00" ∧
    markerColor ⟨none, none, none, some 10⟩ = "red" :=
  ⟨((C4_classification ⟨none, none, some true, some 5⟩).1 (by decide)).1,
    ((C4_classification ⟨none, none, some false, some 150⟩).2.1 (by decide) (by decide)).1,
    ((C4_classification ⟨none, none, none, some 10⟩).2.2.1 (by decide) (by decide)).1⟩

/-- C6: the per-frame scale multiplier equals |sin(2 t)| for elapsed time t,
lies in [0, 1], and is applied uniformly to the base size on all three axes;
it depends only on t, not on the marker, so all markers blink in lockstep. -/
theorem C6_blink_scale (t : ℝ) :
    blinkScale t = |Real.sin (2 * t)| ∧
    0 ≤ blinkScale t ∧ blinkScale t ≤ 1 ∧
    ∀ color : String,
      markerScale color t =
        ⟨blinkScale t * (baseSize color : ℝ),
          blinkScale t * (baseSize color : ℝ),
          blinkScale t * (baseSize color : ℝ)⟩ := by
  refine ⟨by rw [blinkScale, mul_comm], abs_nonneg _, ?_, fun _ => rfl⟩
  rw [blinkScale]
  exact abs_le.mpr ⟨Real.neg_one_le_sin _, Real.sin_le_one _⟩

/-- C7: an empty person list, and likewise an empty airport table, produce
zero markers (and the pipeline is total, so no error is possible). -/
theorem C7_empty_inputs :
    (∀ airportsData : List Airport, airportDots [] airportsData = []) ∧
    (∀ neighbors : List Person, airportDots neighbors [] = []) := by
  constructor
  · intro a; rfl
  · intro ns
    have h : ∀ gs : List (String × List Person),
        (gs.filterMap fun g => renderGroup [] g.1 g.2) = [] := by
      intro gs
      simp [renderGroup]
    rw [airportDots, h]
    rfl

/-- C8: `calculateOffsetPosition` is deterministic: two calls with identical
basePosition, index and count arguments return identical outputs. -/
theorem C8_deterministic (b₁ b₂ : Vec3) (i₁ i₂ total₁ total₂ : ℕ)
    (hb : b₁ = b₂) (hi : i₁ = i₂) (ht : total₁ = total₂) :
    calculateOffsetPosition b₁ i₁ total₁ = calculateOffsetPosition b₂ i₂ total₂ := by
  rw [hb, hi, ht]

/-- C8 witness: two identical concrete calls agree. -/
theorem C8_deterministic_witness :
    calculateOffsetPosition ⟨1, 0, 0⟩ 0 2 = calculateOffsetPosition ⟨1, 0, 0⟩ 0 2 :=
  C8_deterministic ⟨1, 0, 0⟩ ⟨1, 0, 0⟩ 0 0 2 2 rfl rfl rfl

/-- C10: a record of the API handler's success response carries no
`approvedFlightStipend` key, so the globe's color rule can never classify it
green: it is yellow when the rounded hours reach 100 and red otherwise. -/
theorem C10_handler_never_green (r : NeighborResponseItem) :
    markerColor (personOfResponse r) ≠ "#00ff00" ∧
    (markerColor (personOfResponse r) = "#ffff00" ∨
      markerColor (personOfResponse r) = "red") := by
  have hfalse : truthy (personOfResponse r).approvedFlightStipend = false := rfl
  rw [markerColor, hfalse]
  by_cases h : geOpt (personOfResponse r).totalTimeHackatimeHours 100 = true
  · rw [if_neg (by simp), if_pos h]
    exact ⟨by decide, Or.inl rfl⟩
  · rw [if_neg (by simp), if_neg h]
    exact ⟨by decide, Or.inr rfl⟩

-- Grouping lemmas for C5.

/-- Whether a person's (uppercased) airport code is `c`; a missing code
matches nothing. -/
def hasCode (p : Person) (c : String) : Bool :=
  match p.airport with
  | none => false
  | some a => upper a = c

theorem membersOf_insertGroup (gs : List (String × List Person)) (code : String)
    (p : Person) (c : String) :
    membersOf (insertGroup gs code p) c =
      membersOf gs c ++ (if code = c then [p] else []) := by
  induction gs with
  | nil =>
    by_cases h : code = c
    · simp [insertGroup, membersOf, List.find?, h]
    · simp [insertGroup, membersOf, List.find?, h]
  | cons g gs ih =>
    by_cases hg : g.1 = code
    · rw [insertGroup, if_pos hg]
      by_cases hc : g.1 = c
      · have hcodec : code = c := hg ▸ hc
        simp [membersOf, List.find?, hc, hcodec]
      · have hcodec : ¬code = c := fun h => hc (hg.trans h)
        simp [membersOf, List.find?, hc, hcodec]
    · rw [insertGroup, if_neg hg]
      by_cases hc : g.1 = c
      · have hcodec : ¬code = c := fun h => hg (hc.trans h.symm)
        simp [membersOf, List.find?, hc, hcodec]
      · simp only [membersOf, List.find?] at ih ⊢
        simp [hc, ih]

theorem groupByAirport_foldl (ps : List Person) (c : String) :
    ∀ acc : List (String × List Person),
      membersOf
        (ps.foldl
          (fun groups p =>
            match p.airport with
            | none => groups
            | some a => insertGroup groups (upper a) p)
          acc) c =
      membersOf acc c ++ ps.filter (fun p => hasCode p c) := by
  induction ps with
  | nil => intro acc; simp
  | cons p ps ih =>
    intro acc
    rw [List.foldl_cons]
    cases hp : p.airport with
    | none =>
      rw [ih acc]
      simp [List.filter_cons, hasCode, hp]
    | some a =>
      rw [ih (insertGroup acc (upper a) p), membersOf_insertGroup]
      by_cases hc : upper a = c
      · simp [List.filter_cons, hasCode, hp, hc]
      · simp [List.filter_cons, hasCode, hp, hc]

-- Concrete inputs of the spec's grouping scenario.

def personSfoLower : Person := ⟨some "u1", some "sfo", none, none⟩

def personSfoUpper : Person := ⟨some "u2", some "SFO", none, none⟩

def personNoAirport : Person := ⟨some "u3", none, none, none⟩

def personXyz : Person := ⟨some "u4", some "xyz", none, none⟩

def sfoAirport : Airport := ⟨some "SFO", some "KSFO", some 37, some (-122)⟩

/-- C5: grouping is by uppercased airport code and stable (each code's group
is exactly the input-order filter of the persons carrying that code, so
null-code persons join no group), and on the spec's example — persons with
codes "sfo", "SFO", null, "xyz" against a table holding only SFO — exactly
one group "SFO" with those two members survives. -/
theorem C5_grouping :
    (∀ (persons : List Person) (code : String),
      membersOf (groupByAirport persons) code =
        persons.filter fun p => hasCode p code) ∧
    keptGroups [sfoAirport] [personSfoLower, personSfoUpper, personNoAirport, personXyz] =
      [("SFO", [personSfoLower, personSfoUpper])] := by
  constructor
  · intro persons code
    rw [groupByAirport, groupByAirport_foldl]
    rfl
  · decide

-- C9: falsy latitude/longitude drops the group like an unmatched code.

/-- C9: a group whose matched airport record has latitude 0 or longitude 0
renders nothing, exactly as when no airport record matches, because the guard
treats the falsy number 0 as a missing coordinate. -/
theorem C9_zero_coordinate_dropped (airportsData : List Airport) (code : String)
    (members : List Person) (a : Airport)
    (hfind : airportsData.find? (fun x => airportMatches x code) = some a)
    (hzero : a.lat = some 0 ∨ a.lon = some 0) :
    renderGroup airportsData code members = none ∧
    renderGroup [] code members = none := by
  refine ⟨?_, rfl⟩
  rw [renderGroup, hfind]
  rcases hzero with h | h
  · simp [truthyNum, h]
  · simp [truthyNum, h]

/-- C9 witness: a matched equatorial airport (lat 0) renders nothing. -/
theorem C9_zero_coordinate_dropped_witness :
    ([(⟨some "EQA", none, some 0, some 10⟩ : Airport)].find?
        (fun x => airportMatches x "EQA") = some ⟨some "EQA", none, some 0, some 10⟩) ∧
    renderGroup [⟨some "EQA", none, some 0, some 10⟩] "EQA" [personSfoLower] = none :=
  ⟨by decide,
    (C9_zero_coordinate_dropped [⟨some "EQA", none, some 0, some 10⟩] "EQA"
      [personSfoLower] ⟨some "EQA", none, some 0, some 10⟩ (by decide) (Or.inl rfl)).1⟩

-- Dot-product algebra and tangent-plane facts for C1 and C2.

theorem dot3_vadd_right (a b c : Vec3) : dot3 a (vadd b c) = dot3 a b + dot3 a c := by
  simp [dot3, vadd]; ring

theorem dot3_vsub_right (a b c : Vec3) : dot3 a (vsub b c) = dot3 a b - dot3 a c := by
  simp [dot3, vsub]; ring

theorem dot3_vsmul_right (a : Vec3) (r : ℝ) (b : Vec3) :
    dot3 a (vsmul r b) = r * dot3 a b := by
  simp [dot3, vsmul]; ring

theorem dot3_vzero_right (a : Vec3) : dot3 a vzero = 0 := by
  simp [dot3, vzero]

theorem vnormalize_of_norm_one (b : Vec3) (hb : norm3 b = 1) : vnormalize b = b := by
  have hbz : b ≠ vzero := by
    intro h
    rw [h, (norm3_eq_zero_iff vzero).mpr rfl] at hb
    norm_num at hb
  rw [vnormalize_of_ne b hbz, hb]
  rw [Vec3.ext_iff']
  simp [vsmul]

theorem dot3_normal_self (b : Vec3) (hb : b ≠ vzero) :
    dot3 (vnormalize b) (vnormalize b) = 1 := by
  rw [← norm3_sq, norm3_vnormalize b hb]
  norm_num

theorem dot3_normal_base (b : Vec3) (hb : b ≠ vzero) :
    dot3 (vnormalize b) b = norm3 b := by
  have hpos := norm3_pos_of_ne b hb
  rw [vnormalize_of_ne b hb]
  have h : dot3 (vsmul (norm3 b)⁻¹ b) b = (norm3 b)⁻¹ * dot3 b b := by
    simp [dot3, vsmul]; ring
  rw [h, ← norm3_sq, sq, ← mul_assoc, inv_mul_cancel₀ (ne_of_gt hpos), one_mul]

theorem dot3_normal_tangent (b o : Vec3) (hb : b ≠ vzero) :
    dot3 (vnormalize b) (vsub o (vsmul (dot3 o (vnormalize b)) (vnormalize b))) = 0 := by
  rw [dot3_vsub_right, dot3_vsmul_right, dot3_normal_self b hb,
    dot3_comm (vnormalize b) o]
  ring

theorem dot3_normal_base_tangent (b o : Vec3) (hb : b ≠ vzero) :
    dot3 (vnormalize b)
      (vadd b (vsub o (vsmul (dot3 o (vnormalize b)) (vnormalize b)))) = norm3 b := by
  rw [dot3_vadd_right, dot3_normal_base b hb, dot3_normal_tangent b o hb, add_zero]

theorem base_plus_tangent_ne (b o : Vec3) (hb : b ≠ vzero) :
    vadd b (vsub o (vsmul (dot3 o (vnormalize b)) (vnormalize b))) ≠ vzero := by
  intro h
  have hd := dot3_normal_base_tangent b o hb
  rw [h, dot3_vzero_right] at hd
  exact absurd hd.symm (ne_of_gt (norm3_pos_of_ne b hb))

theorem calcOffset_norm_of_two_le (b : Vec3) (i total : ℕ)
    (hb : b ≠ vzero) (h2 : 2 ≤ total) :
    norm3 (calculateOffsetPosition b i total) = 1 := by
  rw [calculateOffsetPosition_of_two_le b i total h2]
  exact norm3_vnormalize _ (base_plus_tangent_ne b (flatOffset i total) hb)

/-- C2 counterexample: with the default radius 1.001, the base position for
lat 0 / lon 0 has norm 1.001, but the offset position computed from it for a
group of two has norm 1 — renormalization moves it to the unit sphere, not
the base position's sphere. -/
theorem C2_counterexample :
    norm3 (latLonToVec3 0 0 defaultDotRadius) = 1.001 ∧
    norm3 (calculateOffsetPosition (latLonToVec3 0 0 defaultDotRadius) 0 2) = 1 ∧
    (1.001 : ℝ) ≠ 1 := by
  have hbase : norm3 (latLonToVec3 0 0 defaultDotRadius) = 1.001 := by
    rw [defaultDotRadius]; exact norm3_latLonToVec3 0 0 1.001 (by norm_num)
  have hne : latLonToVec3 0 0 defaultDotRadius ≠ vzero := by
    intro h
    rw [h, (norm3_eq_zero_iff vzero).mpr rfl] at hbase
    norm_num at hbase
  exact ⟨hbase, calcOffset_norm_of_two_le _ 0 2 hne (le_refl 2), by norm_num⟩

/-- C2 (amended): `calculateOffsetPosition` returns the base position
unchanged when the group size is at most 1; for group size at least 2 and a
nonzero base position, each output lies on the unit sphere (norm exactly 1),
regardless of the base position's own radius. -/
theorem C2_offset_sphere (b : Vec3) (i total : ℕ) :
    (total ≤ 1 → calculateOffsetPosition b i total = b) ∧
    (2 ≤ total → b ≠ vzero → norm3 (calculateOffsetPosition b i total) = 1) :=
  ⟨calculateOffsetPosition_of_le_one b i total,
    fun h2 hb => calcOffset_norm_of_two_le b i total hb h2⟩

/-- C2 witness: a group of one keeps the base point; a group of two from a
nonzero base lands on the unit sphere. -/
theorem C2_offset_sphere_witness :
    calculateOffsetPosition ⟨0, 2, 0⟩ 0 1 = ⟨0, 2, 0⟩ ∧
    norm3 (calculateOffsetPosition ⟨0, 2, 0⟩ 0 2) = 1 :=
  ⟨(C2_offset_sphere ⟨0, 2, 0⟩ 0 1).1 (by norm_num),
    (C2_offset_sphere ⟨0, 2, 0⟩ 0 2).2 (by norm_num)
      (by simp [Vec3.ext_iff', vzero])⟩

-- Distinctness of the flat offsets: distinct indices below `total` give
-- distinct points on the circle of radius 0.01.

theorem dotAngle_sub (i j total : ℕ) :
    dotAngle j total - dotAngle i total =
      (((j : ℝ) - (i : ℝ)) / (total : ℝ)) * (2 * Real.pi) := by
  rw [dotAngle, dotAngle]
  ring

theorem flatOffset_inj (total i j : ℕ) (hij : i < j) (hj : j < total) :
    flatOffset i total ≠ flatOffset j total := by
  intro h
  rw [Vec3.ext_iff'] at h
  obtain ⟨hx, -, hz⟩ := h
  simp only [flatOffset] at hx hz
  have hcos : Real.cos (dotAngle i total) = Real.cos (dotAngle j total) :=
    mul_right_cancel₀ (by norm_num) hx
  have hsin : Real.sin (dotAngle i total) = Real.sin (dotAngle j total) :=
    mul_right_cancel₀ (by norm_num) hz
  have hone : Real.cos (dotAngle j total - dotAngle i total) = 1 := by
    rw [Real.cos_sub, ← hcos, ← hsin]
    have := Real.sin_sq_add_cos_sq (dotAngle i total)
    nlinarith [this]
  have hcpos : (0 : ℝ) < (total : ℝ) := by
    have : 0 < total := by omega
    exact_mod_cast this
  have hilt : (i : ℝ) < (j : ℝ) := by exact_mod_cast hij
  have hjlt : (j : ℝ) < (total : ℝ) := by exact_mod_cast hj
  have hinn : (0 : ℝ) ≤ (i : ℝ) := Nat.cast_nonneg i
  have hfrac0 : 0 < ((j : ℝ) - (i : ℝ)) / (total : ℝ) := by
    apply div_pos (by linarith) hcpos
  have hfrac1 : ((j : ℝ) - (i : ℝ)) / (total : ℝ) < 1 := by
    rw [div_lt_one hcpos]
    linarith
  have hpi := Real.pi_pos
  have hlow : -(2 * Real.pi) < dotAngle j total - dotAngle i total := by
    rw [dotAngle_sub]
    nlinarith
  have hhigh : dotAngle j total - dotAngle i total < 2 * Real.pi := by
    rw [dotAngle_sub]
    nlinarith
  have hzero := (Real.cos_eq_one_iff_of_lt_of_lt hlow hhigh).mp hone
  rw [dotAngle_sub] at hzero
  nlinarith

-- Injectivity of the offset construction away from the equatorial plane.

theorem calcOffset_inj (b : Vec3) (hb : norm3 b = 1) (hy : b.y ≠ 0)
    (total i j : ℕ) (h2 : 2 ≤ total) (hij : i < j) (hj : j < total) :
    calculateOffsetPosition b i total ≠ calculateOffsetPosition b j total := by
  intro heq
  have hbz : b ≠ vzero := by
    intro h
    rw [h, (norm3_eq_zero_iff vzero).mpr rfl] at hb
    norm_num at hb
  have hbb : dot3 b b = 1 := by rw [← norm3_sq, hb]; norm_num
  have hnb : vnormalize b = b := vnormalize_of_norm_one b hb
  rw [calculateOffsetPosition_of_two_le b i total h2,
    calculateOffsetPosition_of_two_le b j total h2, hnb] at heq
  set oi := flatOffset i total with hoi
  set oj := flatOffset j total with hoj
  set ti := vsub oi (vsmul (dot3 oi b) b) with hti
  set tj := vsub oj (vsmul (dot3 oj b) b) with htj
  set ui := vadd b ti with hui
  set uj := vadd b tj with huj
  have hdot_ui : dot3 b ui = 1 := by
    rw [hui, dot3_vadd_right, hbb, hti, dot3_vsub_right, dot3_vsmul_right, hbb,
      dot3_comm b oi]
    ring
  have hdot_uj : dot3 b uj = 1 := by
    rw [huj, dot3_vadd_right, hbb, htj, dot3_vsub_right, dot3_vsmul_right, hbb,
      dot3_comm b oj]
    ring
  have hne_ui : ui ≠ vzero := by
    intro h
    rw [h, dot3_vzero_right] at hdot_ui
    norm_num at hdot_ui
  have hne_uj : uj ≠ vzero := by
    intro h
    rw [h, dot3_vzero_right] at hdot_uj
    norm_num at hdot_uj
  have hpos_ui := norm3_pos_of_ne ui hne_ui
  have hpos_uj := norm3_pos_of_ne uj hne_uj
  rw [vnormalize_of_ne ui hne_ui, vnormalize_of_ne uj hne_uj] at heq
  have hdot := congrArg (dot3 b) heq
  rw [dot3_vsmul_right, dot3_vsmul_right, hdot_ui, hdot_uj, mul_one, mul_one] at hdot
  have hnorm_eq : norm3 ui = norm3 uj := inv_injective hdot
  have hu_eq : ui = uj := by
    rw [hnorm_eq] at heq
    have hc : (norm3 uj)⁻¹ ≠ 0 := inv_ne_zero (ne_of_gt hpos_uj)
    rw [Vec3.ext_iff'] at heq ⊢
    simp only [vsmul] at heq
    exact ⟨mul_left_cancel₀ hc heq.1, mul_left_cancel₀ hc heq.2.1,
      mul_left_cancel₀ hc heq.2.2⟩
  have ht_eq : ti = tj := by
    rw [hui, huj, Vec3.ext_iff'] at hu_eq
    simp only [vadd] at hu_eq
    rw [Vec3.ext_iff']
    exact ⟨by linarith [hu_eq.1], by linarith [hu_eq.2.1], by linarith [hu_eq.2.2]⟩
  have hd_eq : dot3 oi b = dot3 oj b := by
    have hy_eq := congrArg Vec3.y ht_eq
    rw [hti, htj] at hy_eq
    simp only [vsub, vsmul] at hy_eq
    have hoy_i : oi.y = 0 := by rw [hoi]; rfl
    have hoy_j : oj.y = 0 := by rw [hoj]; rfl
    rw [hoy_i, hoy_j] at hy_eq
    have : dot3 oi b * b.y = dot3 oj b * b.y := by linarith
    exact mul_right_cancel₀ hy this
  have ho_eq : oi = oj := by
    rw [hti, htj, hd_eq, Vec3.ext_iff'] at ht_eq
    simp only [vsub, vsmul] at ht_eq
    rw [Vec3.ext_iff']
    exact ⟨by linarith [ht_eq.1], by linarith [ht_eq.2.1], by linarith [ht_eq.2.2]⟩
  exact flatOffset_inj total i j hij hj ho_eq

-- The equatorial collision refuting unconditional pairwise distinctness.

theorem norm3_e100 : norm3 ⟨1, 0, 0⟩ = 1 := by
  have hd : dot3 (⟨1, 0, 0⟩ : Vec3) ⟨1, 0, 0⟩ = 1 := by norm_num [dot3]
  rw [norm3, hd, Real.sqrt_one]

theorem calcOffset_e100_collapse (i : ℕ) (hy : (flatOffset i 2).y = 0)
    (hz : (flatOffset i 2).z = 0) :
    calculateOffsetPosition ⟨1, 0, 0⟩ i 2 = ⟨1, 0, 0⟩ := by
  have hne := vnormalize_of_norm_one ⟨1, 0, 0⟩ norm3_e100
  rw [calculateOffsetPosition_of_two_le _ _ _ (le_refl 2), hne]
  have hinner :
      vadd ⟨1, 0, 0⟩
        (vsub (flatOffset i 2)
          (vsmul (dot3 (flatOffset i 2) ⟨1, 0, 0⟩) ⟨1, 0, 0⟩)) = (⟨1, 0, 0⟩ : Vec3) := by
    rw [Vec3.ext_iff']
    simp [vadd, vsub, vsmul, dot3, hy, hz]
  rw [hinner, hne]

theorem norm3_vzero : norm3 vzero = 0 := (norm3_eq_zero_iff vzero).mpr rfl

theorem dist3_self (p : Vec3) : dist3 p p = 0 := by
  rw [dist3, (vsub_eq_vzero_iff p p).mpr rfl, norm3_vzero]

/-- C1 counterexample: the base position (1,0,0) is on the unit sphere, and
for a group of two the offset positions at indices 0 and 1 coincide (both
equal the base point), so their pairwise distance is 0, not positive. -/
theorem C1_counterexample :
    norm3 ⟨1, 0, 0⟩ = 1 ∧
    calculateOffsetPosition ⟨1, 0, 0⟩ 0 2 = calculateOffsetPosition ⟨1, 0, 0⟩ 1 2 ∧
    dist3 (calculateOffsetPosition ⟨1, 0, 0⟩ 0 2)
      (calculateOffsetPosition ⟨1, 0, 0⟩ 1 2) = 0 := by
  have ha0 : dotAngle 0 2 = 0 := by simp [dotAngle]
  have ha1 : dotAngle 1 2 = Real.pi := by
    rw [dotAngle]
    push_cast
    ring
  have h0 : calculateOffsetPosition ⟨1, 0, 0⟩ 0 2 = ⟨1, 0, 0⟩ := by
    apply calcOffset_e100_collapse 0
    · rfl
    · show Real.sin (dotAngle 0 2) * 0.01 = 0
      rw [ha0, Real.sin_zero, zero_mul]
  have h1 : calculateOffsetPosition ⟨1, 0, 0⟩ 1 2 = ⟨1, 0, 0⟩ := by
    apply calcOffset_e100_collapse 1
    · rfl
    · show Real.sin (dotAngle 1 2) * 0.01 = 0
      rw [ha1, Real.sin_pi, zero_mul]
  refine ⟨norm3_e100, h0.trans h1.symm, ?_⟩
  rw [h0, h1, dist3_self]

/-- C1 (amended): for every basePosition on the unit sphere and every count
in {1,2,3,10}, the offset positions number count and each has norm 1; and
whenever basePosition has nonzero y (it is not on the equatorial plane), the
positions are pairwise distinct (all pairwise distances positive).  At
equatorial base positions opposite offsets can collapse onto the base point. -/
theorem C1_offsets (b : Vec3) (hb : norm3 b = 1) (count : ℕ)
    (hcount : count = 1 ∨ count = 2 ∨ count = 3 ∨ count = 10) :
    (offsetPositions b count).length = count ∧
    (∀ p ∈ offsetPositions b count, norm3 p = 1) ∧
    (b.y ≠ 0 → (offsetPositions b count).Pairwise fun p q => 0 < dist3 p q) := by
  have hbz : b ≠ vzero := by
    intro h
    rw [h, norm3_vzero] at hb
    norm_num at hb
  have hsplit : count = 1 ∨ 2 ≤ count := by omega
  refine ⟨by simp [offsetPositions], ?_, ?_⟩
  · intro p hp
    rw [offsetPositions] at hp
    obtain ⟨i, hi, rfl⟩ := List.mem_map.mp hp
    rcases hsplit with h1 | h2
    · subst h1
      rw [calculateOffsetPosition_of_le_one b i 1 (le_refl 1)]
      exact hb
    · exact calcOffset_norm_of_two_le b i count hbz h2
  · intro hy
    rw [offsetPositions, List.pairwise_iff_getElem]
    intro i j hi hj hij
    simp only [List.length_map, List.length_range] at hi hj
    simp only [List.getElem_map, List.getElem_range]
    rcases hsplit with h1 | h2
    · omega
    · exact dist3_pos_of_ne _ _ (calcOffset_inj b hb hy count i j h2 hij hj)

/-- C1 witness: at the north-pole base (0,1,0) and count 2 the positions are
two, unit-norm and pairwise separated. -/
theorem C1_offsets_witness :
    norm3 ⟨0, 1, 0⟩ = 1 ∧
    (offsetPositions ⟨0, 1, 0⟩ 2).length = 2 ∧
    (∀ p ∈ offsetPositions ⟨0, 1, 0⟩ 2, norm3 p = 1) ∧
    (offsetPositions ⟨0, 1, 0⟩ 2).Pairwise fun p q => 0 < dist3 p q := by
  have hd : dot3 (⟨0, 1, 0⟩ : Vec3) ⟨0, 1, 0⟩ = 1 := by norm_num [dot3]
  have hb : norm3 (⟨0, 1, 0⟩ : Vec3) = 1 := by rw [norm3, hd, Real.sqrt_one]
  have h := C1_offsets ⟨0, 1, 0⟩ hb 2 (Or.inr (Or.inl rfl))
  exact ⟨hb, h.1, h.2.1, h.2.2 (by norm_num)⟩
